import Mathlib

/-!
Verification of the hylaean_splat data-format conversion engine.

The engine is embedded shallowly: a text file is a list of lines
(`List String`, mirroring Rust's `BufRead::lines`, which strips the
terminators), the filesystem is an association list from paths to line
lists, `f64` values are modelled as rationals, and the floating-point
primitives the code calls (`str::parse::<f64>`, `f64::atan`,
`f64::sqrt`, `Display` for `f64`, serde JSON encoding/decoding) are
abstracted as function parameters.  Every definition is translated from
the Rust source in `src/formats/` and `src/core/data_manager.rs`.
-/

namespace HylaeanSplat

/-! ## String primitives

Models of the Rust string operations the converters use
(`split_whitespace`, `trim().is_empty()`, `starts_with`, `contains`,
`to_lowercase`, `parse::<usize>`/`parse::<u32>`), implemented over the
character list underlying a `String` so that concrete evaluation
reduces in the kernel. -/

/-- ASCII whitespace, the fragment of Rust `char::is_whitespace`
relevant to these text formats. -/
def isWsChar (c : Char) : Bool :=
  c = ' ' || c = '\t' || c = '\n' || c = '\r'

/-- Rust `line.trim().is_empty()`: the line has no non-whitespace
character. -/
def blank (s : String) : Bool :=
  s.data.all isWsChar

/-- Worker for `splitWs`; `acc` holds the characters of the token in
progress, reversed. -/
def splitWsAux : List Char → List Char → List String
  | [], acc => if acc.isEmpty then [] else [⟨acc.reverse⟩]
  | c :: cs, acc =>
    if isWsChar c then
      if acc.isEmpty then splitWsAux cs []
      else ⟨acc.reverse⟩ :: splitWsAux cs []
    else splitWsAux cs (c :: acc)

/-- Rust `str::split_whitespace().collect::<Vec<_>>()`. -/
def splitWs (s : String) : List String :=
  splitWsAux s.data []

/-- Rust `str::starts_with` (also covers the single-character form
`starts_with('#')`). -/
def startsWithS (s pre : String) : Bool :=
  pre.data.isPrefixOf s.data

/-- Worker for `containsSub`: does `pat` occur as a contiguous block of
the character list? -/
def containsAux (pat : List Char) : List Char → Bool
  | [] => pat.isEmpty
  | c :: cs => pat.isPrefixOf (c :: cs) || containsAux pat cs

/-- Rust `str::contains(substring)`. -/
def containsSub (s pat : String) : Bool :=
  containsAux pat.data s.data

/-- ASCII lowercasing of one character (Rust `to_lowercase` on the
extension/format tokens, which are ASCII). -/
def lowerChar (c : Char) : Char :=
  if 'A' ≤ c && c ≤ 'Z' then Char.ofNat (c.toNat + 32) else c

/-- Rust `str::to_lowercase` restricted to ASCII. -/
def toLowerS (s : String) : String :=
  ⟨s.data.map lowerChar⟩

/-- ASCII decimal digit test. -/
def isDigitChar (c : Char) : Bool :=
  48 ≤ c.toNat && c.toNat ≤ 57

/-- Numeric value of a decimal digit string. -/
def digitsVal (cs : List Char) : Nat :=
  cs.foldl (fun a c => a * 10 + (c.toNat - 48)) 0

/-- Rust `str::parse::<usize>()` (digit strings; the converters only
ever feed it header tokens). -/
def parseNat? (s : String) : Option Nat :=
  if !s.data.isEmpty && s.data.all isDigitChar then some (digitsVal s.data) else none

/-- Rust `str::parse::<u32>().unwrap_or(0)`: out-of-range or malformed
input collapses to the default `0`. -/
def parseU32OrZero (s : String) : Nat :=
  match parseNat? s with
  | some n => if n < 4294967296 then n else 0
  | none => 0

/-- Decimal digit character for `d < 10`. -/
def digitChar : Nat → Char
  | 0 => '0' | 1 => '1' | 2 => '2' | 3 => '3' | 4 => '4'
  | 5 => '5' | 6 => '6' | 7 => '7' | 8 => '8' | 9 => '9'
  | _ => '*'

/-- Decimal digits, least significant first; the first argument is
fuel (structural recursion so that concrete evaluation reduces). -/
def natToRevDigitsF : Nat → Nat → List Char
  | 0, _ => []
  | _ + 1, 0 => []
  | fuel + 1, n + 1 => digitChar ((n + 1) % 10) :: natToRevDigitsF fuel ((n + 1) / 10)

/-- Decimal digits of `n`, least significant first (`n` itself is
always enough fuel). -/
def natToRevDigits (n : Nat) : List Char :=
  natToRevDigitsF n n

/-- Decimal rendering of a `usize` (Rust `{}` formatting of the counts
written into headers). -/
def natStr (n : Nat) : String :=
  if n = 0 then "0" else ⟨(natToRevDigits n).reverse⟩

/-! ## Format model and errors

From `src/formats/mod.rs` and `src/errors.rs` (the `DataManager` in
`src/core/data_manager.rs` re-declares the identical enums). -/

inductive PointCloudFormat where
  | PLY | PCD | XYZ | LAZ
  | Custom (name : String)
deriving DecidableEq

inductive CameraFormat where
  | COLMAP | NeRF | OpenCV | Blender
  | Custom (name : String)
deriving DecidableEq

inductive DatasetFormat where
  | NeRFSynthetic | LLFF | TanksAndTemples
  | Custom (name : String)
deriving DecidableEq

inductive DataFormat where
  | PointCloud (k : PointCloudFormat)
  | CameraParameters (k : CameraFormat)
  | Dataset (k : DatasetFormat)
deriving DecidableEq

/-- The subset of `HylaeanError` variants the conversion engine can
produce.  `IoError` stands for the propagated `std::io::Error` a failed
`File::open` raises; the path it records identifies the file. -/
inductive HylaeanError where
  | UnsupportedFormat (format : String)
  | ConversionFailed (source_format target_format : String)
  | InvalidPath (path : String)
  | IoError (path : String)
  | SerializationError
deriving DecidableEq

/-- Rust `format!("{:?}", k)` for `PointCloudFormat` (derived `Debug`). -/
def fmtPC : PointCloudFormat → String
  | .PLY => "PLY"
  | .PCD => "PCD"
  | .XYZ => "XYZ"
  | .LAZ => "LAZ"
  | .Custom s => "Custom(\"" ++ s ++ "\")"

/-- Rust `format!("{:?}", k)` for `CameraFormat` (derived `Debug`). -/
def fmtCam : CameraFormat → String
  | .COLMAP => "COLMAP"
  | .NeRF => "NeRF"
  | .OpenCV => "OpenCV"
  | .Blender => "Blender"
  | .Custom s => "Custom(\"" ++ s ++ "\")"

/-- Rust `format!("{:?}", k)` for `DatasetFormat` (derived `Debug`). -/
def fmtDS : DatasetFormat → String
  | .NeRFSynthetic => "NeRFSynthetic"
  | .LLFF => "LLFF"
  | .TanksAndTemples => "TanksAndTemples"
  | .Custom s => "Custom(\"" ++ s ++ "\")"

/-- Rust `format!("{:?}", f)` for `DataFormat` (derived `Debug`). -/
def fmtDF : DataFormat → String
  | .PointCloud k => "PointCloud(" ++ fmtPC k ++ ")"
  | .CameraParameters k => "CameraParameters(" ++ fmtCam k ++ ")"
  | .Dataset k => "Dataset(" ++ fmtDS k ++ ")"

/-! ## Filesystem model

A file is its list of lines; the filesystem is an association list from
path strings to files.  Creating a file prepends, so the newest write
shadows older content, and a missing key models a nonexistent file. -/

def FS : Type := List (String × List String)

/-- Content of the file at `p`, if it exists. -/
def FS.read (fs : FS) (p : String) : Option (List String) :=
  List.lookup p fs

/-- `File::create(p)` followed by writing `ls`. -/
def FS.write (fs : FS) (p : String) (ls : List String) : FS :=
  (p, ls) :: fs

/-- Rust `Path::join` with a relative, slash-free component, the only
way the engine uses it. -/
def joinPath (dir file : String) : String :=
  dir ++ "/" ++ file

/-- The file-name component of a path: everything after the last `/`. -/
def afterLastSlash (cs : List Char) : List Char :=
  cs.foldl (fun acc c => if c = '/' then [] else acc ++ [c]) []

/-- Split a character list at its last `.`, returning the parts before
and after it. -/
def splitLastDot : List Char → Option (List Char × List Char)
  | [] => none
  | c :: rest =>
    match splitLastDot rest with
    | some (b, a) => some (c :: b, a)
    | none => if c = '.' then some ([], rest) else none

/-- Rust `Path::extension().and_then(to_str).unwrap_or("")`: the part
of the file name after its last `.`, or `""` when there is no extension
(no dot, or only a leading dot). -/
def extension (path : String) : String :=
  match splitLastDot (afterLastSlash path.data) with
  | some (b, a) => if b.isEmpty then "" else ⟨a⟩
  | none => ""

/-! ## Format model operations

`detect_format`, `looks_like_camera_params` and `parse_format` from
`src/formats/mod.rs`; `DataManager` carries verbatim copies of all
three (`src/core/data_manager.rs`), so one embedding covers both. -/

/-- The sniffing loop of `looks_like_camera_params`: scan lines,
returning `true` as soon as one contains either marker. -/
def scanCam : List String → Bool
  | [] => false
  | l :: ls =>
    if containsSub l "# Camera list" || containsSub l "# Image list" then true
    else scanCam ls

/-- `looks_like_camera_params(path)`: open the file (propagating the
I/O error when it is missing) and sniff its first 5 lines. -/
def looks_like_camera_params (fs : FS) (path : String) : Except HylaeanError Bool :=
  match FS.read fs path with
  | none => .error (.IoError path)
  | some lines => .ok (scanCam (lines.take 5))

/-- `detect_format(path)`: extension table, with content sniffing for
`txt`. -/
def detect_format (fs : FS) (path : String) : Except HylaeanError DataFormat :=
  let ext := extension path
  match toLowerS ext with
  | "ply" => .ok (.PointCloud .PLY)
  | "pcd" => .ok (.PointCloud .PCD)
  | "xyz" => .ok (.PointCloud .XYZ)
  | "laz" => .ok (.PointCloud .LAZ)
  | "txt" =>
    match looks_like_camera_params fs path with
    | .error e => .error e
    | .ok b =>
      if b then .ok (.CameraParameters .COLMAP) else .ok (.PointCloud .XYZ)
  | "json" => .ok (.CameraParameters .NeRF)
  | _ => .error (.UnsupportedFormat ext)

/-- `parse_format(name)`: case-insensitive token lookup. -/
def parse_format (format_str : String) : Except HylaeanError DataFormat :=
  match toLowerS format_str with
  | "ply" => .ok (.PointCloud .PLY)
  | "pcd" => .ok (.PointCloud .PCD)
  | "xyz" => .ok (.PointCloud .XYZ)
  | "laz" => .ok (.PointCloud .LAZ)
  | "colmap" => .ok (.CameraParameters .COLMAP)
  | "nerf" => .ok (.CameraParameters .NeRF)
  | "opencv" => .ok (.CameraParameters .OpenCV)
  | "blender" => .ok (.CameraParameters .Blender)
  | _ => .error (.UnsupportedFormat format_str)

/-! ## Point Cloud Converter

Line-level translations from `src/formats/point_cloud.rs`; the
`DataManager` methods of `src/core/data_manager.rs` repeat the same
loops verbatim, so each function below embeds both copies. -/

/-- State of the PLY reading loop (`in_vertex_data`, `vertex_count`,
`processed_vertices`, and the rows written/collected so far). -/
structure PlyScan where
  inData : Bool
  count : Nat
  processed : Nat
  out : List String
deriving DecidableEq

/-- The row a PLY data line contributes to an XYZ output: the first
three whitespace tokens, space-separated (Rust
`writeln!("{} {} {}", parts[0], parts[1], parts[2])`). -/
def xyzEmit (line : String) : String :=
  match splitWs line with
  | t0 :: t1 :: t2 :: _ => t0 ++ " " ++ t1 ++ " " ++ t2
  | _ => ""

/-- One iteration of the PLY reading loop shared by `ply_to_xyz` and
`ply_to_pcd`; `emit` is what an accepted data row contributes
(truncated tokens for XYZ, the raw line for PCD). -/
def plyStep (emit : String → String) (st : PlyScan) (line : String) : PlyScan :=
  if startsWithS line "element vertex" then
    { st with count := (((splitWs line).get? 2).bind parseNat?).getD 0 }
  else if line = "end_header" then
    { st with inData := true }
  else if st.inData && st.processed < st.count && 3 ≤ (splitWs line).length then
    { st with processed := st.processed + 1, out := st.out ++ [emit line] }
  else st

/-- Run the PLY reading loop from the initial state. -/
def plyScan (emit : String → String) (lines : List String) : PlyScan :=
  lines.foldl (plyStep emit) ⟨false, 0, 0, []⟩

/-- Output lines of `ply_to_xyz`. -/
def plyToXyzLines (lines : List String) : List String :=
  (plyScan xyzEmit lines).out

/-- The PLY header written by `xyz_to_ply` and `pcd_to_ply`. -/
def plyHeaderLines (n : Nat) : List String :=
  ["ply", "format ascii 1.0", "element vertex " ++ natStr n,
   "property float x", "property float y", "property float z", "end_header"]

/-- The PCD v0.7 header written by `ply_to_pcd` and `xyz_to_pcd`. -/
def pcdHeaderLines (n : Nat) : List String :=
  ["# .PCD v0.7 - Point Cloud Data file format", "VERSION 0.7",
   "FIELDS x y z", "SIZE 4 4 4", "TYPE F F F", "COUNT 1 1 1",
   "WIDTH " ++ natStr n, "HEIGHT 1", "VIEWPOINT 0 0 0 1 0 0 0",
   "POINTS " ++ natStr n, "DATA ascii"]

/-- Output lines of `xyz_to_ply`: pass 1 counts all input lines, pass 2
copies the non-blank ones. -/
def xyzToPlyLines (lines : List String) : List String :=
  plyHeaderLines lines.length ++ lines.filter (fun l => !(blank l))

/-- Output lines of `xyz_to_pcd`: same two passes with the PCD header. -/
def xyzToPcdLines (lines : List String) : List String :=
  pcdHeaderLines lines.length ++ lines.filter (fun l => !(blank l))

/-- Output lines of `ply_to_pcd`: the collected raw rows, preceded by a
header whose counts are `vertices.len()`. -/
def plyToPcdLines (lines : List String) : List String :=
  pcdHeaderLines (plyScan id lines).out.length ++ (plyScan id lines).out

/-- State of the PCD reading loop of `pcd_to_ply` (`in_data`, the
declared `POINTS` count, and the collected rows). -/
structure PcdScan where
  inData : Bool
  count : Nat
  rows : List String
deriving DecidableEq

/-- One iteration of the PCD reading loop of `pcd_to_ply`. -/
def pcdStep (st : PcdScan) (line : String) : PcdScan :=
  if startsWithS line "POINTS" then
    { st with count := (((splitWs line).get? 1).bind parseNat?).getD 0 }
  else if line = "DATA ascii" then
    { st with inData := true }
  else if st.inData && !(blank line) then
    { st with rows := st.rows ++ [line] }
  else st

/-- Output lines of `pcd_to_ply`: a PLY header counting the collected
rows (`vertices.len()`, not the declared `POINTS`), then the rows. -/
def pcdToPlyLines (lines : List String) : List String :=
  plyHeaderLines (lines.foldl pcdStep ⟨false, 0, []⟩).rows.length ++
    (lines.foldl pcdStep ⟨false, 0, []⟩).rows

/-- One iteration of the `pcd_to_xyz` loop: only the `DATA ascii`
marker and blank-line filtering (no `POINTS` branch). -/
def pcdXyzStep (st : Bool × List String) (line : String) : Bool × List String :=
  if line = "DATA ascii" then (true, st.2)
  else if st.1 && !(blank line) then (st.1, st.2 ++ [line])
  else st

/-- Output lines of `pcd_to_xyz`. -/
def pcdToXyzLines (lines : List String) : List String :=
  (lines.foldl pcdXyzStep (false, [])).2

/-! ## Camera Parameters Converter

From `src/formats/camera_params.rs`.  `f64` is modelled by `ℚ`; the
floating-point primitives (`parse::<f64>`, `atan`, `sqrt`, `Display`)
and serde JSON encoding/decoding are abstracted as parameters. -/

/-- A 4×4 `f64` matrix (`[[f64; 4]; 4]`), one field per entry. -/
structure Mat4 where
  m00 : ℚ
  m01 : ℚ
  m02 : ℚ
  m03 : ℚ
  m10 : ℚ
  m11 : ℚ
  m12 : ℚ
  m13 : ℚ
  m20 : ℚ
  m21 : ℚ
  m22 : ℚ
  m23 : ℚ
  m30 : ℚ
  m31 : ℚ
  m32 : ℚ
  m33 : ℚ
deriving DecidableEq

/-- `[[0.0; 4]; 4]`. -/
def zeroMat4 : Mat4 :=
  ⟨0, 0, 0, 0, 0, 0, 0, 0, 0, 0, 0, 0, 0, 0, 0, 0⟩

/-- `quaternion_to_matrix`: start from the zero matrix, assign the nine
rotation entries, the translation column, and `M[3][3] = 1`. -/
def quaternion_to_matrix (qw qx qy qz tx ty tz : ℚ) : Mat4 :=
  let m := zeroMat4
  let m := { m with m00 := 1 - 2 * (qy * qy + qz * qz) }
  let m := { m with m01 := 2 * (qx * qy - qz * qw) }
  let m := { m with m02 := 2 * (qx * qz + qy * qw) }
  let m := { m with m10 := 2 * (qx * qy + qz * qw) }
  let m := { m with m11 := 1 - 2 * (qx * qx + qz * qz) }
  let m := { m with m12 := 2 * (qy * qz - qx * qw) }
  let m := { m with m20 := 2 * (qx * qz - qy * qw) }
  let m := { m with m21 := 2 * (qy * qz + qx * qw) }
  let m := { m with m22 := 1 - 2 * (qx * qx + qy * qy) }
  let m := { m with m03 := tx }
  let m := { m with m13 := ty }
  let m := { m with m23 := tz }
  { m with m33 := 1 }

/-- `matrix_to_quaternion` (`sq` models `f64::sqrt`): translation from
the fourth column; the quaternion from the trace branch when
`trace > 0`, otherwise the default `(1, 0, 0, 0)`. -/
def matrix_to_quaternion (sq : ℚ → ℚ) (m : Mat4) : ℚ × ℚ × ℚ × ℚ × ℚ × ℚ × ℚ :=
  let tx := m.m03
  let ty := m.m13
  let tz := m.m23
  let trace := m.m00 + m.m11 + m.m22
  if trace > 0 then
    let s := sq (trace + 1) * 2
    (0.25 * s, (m.m21 - m.m12) / s, (m.m02 - m.m20) / s, (m.m10 - m.m01) / s,
     tx, ty, tz)
  else
    (1, 0, 0, 0, tx, ty, tz)

/-- `ColmapCamera` (ids and sizes are `u32`, modelled as `Nat` after
the range-checked parse). -/
structure ColmapCamera where
  camera_id : Nat
  model : String
  width : Nat
  height : Nat
  params : List ℚ
deriving DecidableEq

/-- `ColmapImage`. -/
structure ColmapImage where
  image_id : Nat
  qw : ℚ
  qx : ℚ
  qy : ℚ
  qz : ℚ
  tx : ℚ
  ty : ℚ
  tz : ℚ
  camera_id : Nat
  name : String
deriving DecidableEq

/-- `NeRFFrame`. -/
structure NeRFFrame where
  file_path : String
  rotation : ℚ
  transform_matrix : Mat4
deriving DecidableEq

/-- `NeRFCamera` (the transforms-file shape). -/
structure NeRFCamera where
  camera_angle_x : ℚ
  frames : List NeRFFrame
deriving DecidableEq

/-- The `cameras.txt` reading loop (`pf` models `parse::<f64>().ok()`):
skip comments and blanks; a line with at least 5 tokens pushes one
camera, ids parsed with default 0 and params keeping only the tokens
that parse. -/
def readColmapCamerasLoop (pf : String → Option ℚ) :
    List String → List ColmapCamera → List ColmapCamera
  | [], acc => acc
  | l :: ls, acc =>
    if startsWithS l "#" || blank l then readColmapCamerasLoop pf ls acc
    else
      let parts := splitWs l
      if 5 ≤ parts.length then
        readColmapCamerasLoop pf ls (acc ++
          [{ camera_id := parseU32OrZero (parts.getD 0 "")
             model := parts.getD 1 ""
             width := parseU32OrZero (parts.getD 2 "")
             height := parseU32OrZero (parts.getD 3 "")
             params := (parts.drop 4).filterMap pf }])
      else readColmapCamerasLoop pf ls acc

/-- `read_colmap_cameras(base_path)`: require `base_path/cameras.txt`
to exist (else `InvalidPath`), then run the loop. -/
def readColmapCameras (pf : String → Option ℚ) (fs : FS) (base : String) :
    Except HylaeanError (List ColmapCamera) :=
  let p := joinPath base "cameras.txt"
  match FS.read fs p with
  | none => .error (.InvalidPath p)
  | some lines => .ok (readColmapCamerasLoop pf lines [])

/-- The `images.txt` reading loop: skip comments and blanks; a line
with at least 10 tokens pushes one image, every numeric field defaulted
on parse failure (`0.0` for `f64`, `0` for `u32`). -/
def readColmapImagesLoop (pf : String → Option ℚ) :
    List String → List ColmapImage → List ColmapImage
  | [], acc => acc
  | l :: ls, acc =>
    if startsWithS l "#" || blank l then readColmapImagesLoop pf ls acc
    else
      let parts := splitWs l
      if 10 ≤ parts.length then
        readColmapImagesLoop pf ls (acc ++
          [{ image_id := parseU32OrZero (parts.getD 0 "")
             qw := (pf (parts.getD 1 "")).getD 0
             qx := (pf (parts.getD 2 "")).getD 0
             qy := (pf (parts.getD 3 "")).getD 0
             qz := (pf (parts.getD 4 "")).getD 0
             tx := (pf (parts.getD 5 "")).getD 0
             ty := (pf (parts.getD 6 "")).getD 0
             tz := (pf (parts.getD 7 "")).getD 0
             camera_id := parseU32OrZero (parts.getD 8 "")
             name := parts.getD 9 "" }])
      else readColmapImagesLoop pf ls acc

/-- `read_colmap_images(base_path)`: require `base_path/images.txt` to
exist (else `InvalidPath`), then run the loop. -/
def readColmapImages (pf : String → Option ℚ) (fs : FS) (base : String) :
    Except HylaeanError (List ColmapImage) :=
  let p := joinPath base "images.txt"
  match FS.read fs p with
  | none => .error (.InvalidPath p)
  | some lines => .ok (readColmapImagesLoop pf lines [])

/-- `convert_colmap_to_nerf_data` (`at0` models `f64::atan`): fail with
`ConversionFailed` when there is no camera record; otherwise use the
first camera's `params[0]` (default `500.0`) for the field of view and
map every image to a frame through `quaternion_to_matrix`. -/
def convert_colmap_to_nerf_data (at0 : ℚ → ℚ)
    (cameras : List ColmapCamera) (images : List ColmapImage) :
    Except HylaeanError NeRFCamera :=
  match cameras with
  | [] => .error (.ConversionFailed "COLMAP" "NeRF")
  | camera :: _ =>
    let fx := camera.params.headD 500
    let camera_angle_x := 2 * at0 ((camera.width : ℚ) / (2 * fx))
    .ok { camera_angle_x := camera_angle_x
          frames := images.map fun image =>
            { file_path := image.name
              rotation := 0
              transform_matrix :=
                quaternion_to_matrix image.qw image.qx image.qy image.qz
                  image.tx image.ty image.tz } }

/-- `convert_nerf_to_colmap_data` (`sq` models `f64::sqrt`): one
synthesized PINHOLE camera with hardcoded intrinsics, and one image per
frame (1-indexed) through `matrix_to_quaternion`. -/
def convert_nerf_to_colmap_data (sq : ℚ → ℚ) (nerf : NeRFCamera) :
    List ColmapCamera × List ColmapImage :=
  let cameras := [{ camera_id := 1, model := "PINHOLE", width := 640,
                    height := 480, params := [500, 500, 320, 240] : ColmapCamera }]
  let images := nerf.frames.enum.map fun (i, frame) =>
    let q := matrix_to_quaternion sq frame.transform_matrix
    { image_id := i + 1
      qw := q.1, qx := q.2.1, qy := q.2.2.1, qz := q.2.2.2.1
      tx := q.2.2.2.2.1, ty := q.2.2.2.2.2.1, tz := q.2.2.2.2.2.2
      camera_id := 1
      name := frame.file_path : ColmapImage }
  (cameras, images)

/-- Lines of the `cameras.txt` file `write_colmap_cameras` produces
(`ff` models `Display` for `f64`). -/
def camerasFileLines (ff : ℚ → String) (cameras : List ColmapCamera) : List String :=
  ["# Camera list with one line of data per camera:",
   "# CAMERA_ID, MODEL, WIDTH, HEIGHT, PARAMS[]"] ++
  cameras.map fun c =>
    natStr c.camera_id ++ " " ++ c.model ++ " " ++ natStr c.width ++ " " ++
      natStr c.height ++ String.join (c.params.map fun p => " " ++ ff p)

/-- Lines of the `images.txt` file `write_colmap_images` produces: each
image line is followed by one empty continuation line. -/
def imagesFileLines (ff : ℚ → String) (images : List ColmapImage) : List String :=
  ["# Image list with two lines of data per image:",
   "# IMAGE_ID, QW, QX, QY, QZ, TX, TY, TZ, CAMERA_ID, NAME"] ++
  images.flatMap fun im =>
    [natStr im.image_id ++ " " ++ ff im.qw ++ " " ++ ff im.qx ++ " " ++
       ff im.qy ++ " " ++ ff im.qz ++ " " ++ ff im.tx ++ " " ++ ff im.ty ++
       " " ++ ff im.tz ++ " " ++ natStr im.camera_id ++ " " ++ im.name,
     ""]

/-! Namespace for the `CameraParamsConverter` methods; every function
returns the filesystem after the call together with the error, if any,
so that which files a failing call created stays observable. -/

namespace CPC

/-- `CameraParamsConverter::colmap_to_nerf` (`toJson` models
`serde_json::to_string_pretty`): read both COLMAP files, build the NeRF
data, then create the output file. -/
def colmap_to_nerf (pf : String → Option ℚ) (at0 : ℚ → ℚ)
    (toJson : NeRFCamera → List String) (fs : FS) (input output : String) :
    FS × Option HylaeanError :=
  match readColmapCameras pf fs input with
  | .error e => (fs, some e)
  | .ok cameras =>
    match readColmapImages pf fs input with
    | .error e => (fs, some e)
    | .ok images =>
      match convert_colmap_to_nerf_data at0 cameras images with
      | .error e => (fs, some e)
      | .ok nerf => (FS.write fs output (toJson nerf), none)

/-- `CameraParamsConverter::nerf_to_colmap` (`fromJson` models
`serde_json::from_reader`): read the JSON, synthesize the COLMAP data,
write `cameras.txt` then `images.txt` under the output path. -/
def nerf_to_colmap (fromJson : List String → Option NeRFCamera) (sq : ℚ → ℚ)
    (ff : ℚ → String) (fs : FS) (input output : String) :
    FS × Option HylaeanError :=
  match FS.read fs input with
  | none => (fs, some (.IoError input))
  | some lines =>
    match fromJson lines with
    | none => (fs, some .SerializationError)
    | some nerf =>
      let data := convert_nerf_to_colmap_data sq nerf
      let fs := FS.write fs (joinPath output "cameras.txt") (camerasFileLines ff data.1)
      (FS.write fs (joinPath output "images.txt") (imagesFileLines ff data.2), none)

/-- `CameraParamsConverter::colmap_to_opencv`: read both COLMAP files,
then write the two comment lines and one `camera_id width height fx fy
cx cy` line per camera that has at least 4 params. -/
def colmap_to_opencv (pf : String → Option ℚ) (ff : ℚ → String)
    (fs : FS) (input output : String) : FS × Option HylaeanError :=
  match readColmapCameras pf fs input with
  | .error e => (fs, some e)
  | .ok cameras =>
    match readColmapImages pf fs input with
    | .error e => (fs, some e)
    | .ok _ =>
      (FS.write fs output
        (["# OpenCV camera parameters converted from COLMAP",
          "# Format: camera_id width height fx fy cx cy"] ++
         (cameras.filter fun c => 4 ≤ c.params.length).map fun c =>
           natStr c.camera_id ++ " " ++ natStr c.width ++ " " ++
             natStr c.height ++ " " ++ ff (c.params.getD 0 0) ++ " " ++
             ff (c.params.getD 1 0) ++ " " ++ ff (c.params.getD 2 0) ++ " " ++
             ff (c.params.getD 3 0)),
       none)

/-- `CameraParamsConverter::opencv_to_colmap`: the placeholder — it
never reads the input and writes only the two COLMAP comment lines. -/
def opencv_to_colmap (fs : FS) (input output : String) : FS × Option HylaeanError :=
  (FS.write fs output
    ["# Camera list with one line of data per camera:",
     "# CAMERA_ID, MODEL, WIDTH, HEIGHT, PARAMS[]"],
   none)

/-- `CameraParamsConverter::convert_camera_params`: the four
implemented pairs, everything else `ConversionFailed`. -/
def convert_camera_params (pf : String → Option ℚ) (at0 : ℚ → ℚ)
    (toJson : NeRFCamera → List String) (fromJson : List String → Option NeRFCamera)
    (sq : ℚ → ℚ) (ff : ℚ → String) (fs : FS) (input output : String)
    (from_format to_format : CameraFormat) : FS × Option HylaeanError :=
  match from_format, to_format with
  | .COLMAP, .NeRF => colmap_to_nerf pf at0 toJson fs input output
  | .NeRF, .COLMAP => nerf_to_colmap fromJson sq ff fs input output
  | .COLMAP, .OpenCV => colmap_to_opencv pf ff fs input output
  | .OpenCV, .COLMAP => opencv_to_colmap fs input output
  | f, t => (fs, some (.ConversionFailed (fmtCam f) (fmtCam t)))

end CPC

/-! Namespace for the `DataManager` methods of
`src/core/data_manager.rs` — the conversion engine actually reached
from `convert_file`. -/

namespace DM

/-- `DataManager::ply_to_xyz`: open the input (an I/O error when it is
missing), then create the output with the converted lines. -/
def ply_to_xyz (fs : FS) (input output : String) : FS × Option HylaeanError :=
  match FS.read fs input with
  | none => (fs, some (.IoError input))
  | some lines => (FS.write fs output (plyToXyzLines lines), none)

/-- `DataManager::xyz_to_ply` (two passes over the input). -/
def xyz_to_ply (fs : FS) (input output : String) : FS × Option HylaeanError :=
  match FS.read fs input with
  | none => (fs, some (.IoError input))
  | some lines => (FS.write fs output (xyzToPlyLines lines), none)

/-- `DataManager::ply_to_pcd`. -/
def ply_to_pcd (fs : FS) (input output : String) : FS × Option HylaeanError :=
  match FS.read fs input with
  | none => (fs, some (.IoError input))
  | some lines => (FS.write fs output (plyToPcdLines lines), none)

/-- `DataManager::pcd_to_ply`. -/
def pcd_to_ply (fs : FS) (input output : String) : FS × Option HylaeanError :=
  match FS.read fs input with
  | none => (fs, some (.IoError input))
  | some lines => (FS.write fs output (pcdToPlyLines lines), none)

/-- `DataManager::xyz_to_pcd` (two passes over the input). -/
def xyz_to_pcd (fs : FS) (input output : String) : FS × Option HylaeanError :=
  match FS.read fs input with
  | none => (fs, some (.IoError input))
  | some lines => (FS.write fs output (xyzToPcdLines lines), none)

/-- `DataManager::pcd_to_xyz`. -/
def pcd_to_xyz (fs : FS) (input output : String) : FS × Option HylaeanError :=
  match FS.read fs input with
  | none => (fs, some (.IoError input))
  | some lines => (FS.write fs output (pcdToXyzLines lines), none)

/-- `DataManager::convert_point_cloud`: the six implemented pairs,
everything else `ConversionFailed` over the kind names. -/
def convert_point_cloud (fs : FS) (input output : String)
    (input_format output_format : PointCloudFormat) : FS × Option HylaeanError :=
  match input_format, output_format with
  | .PLY, .XYZ => ply_to_xyz fs input output
  | .XYZ, .PLY => xyz_to_ply fs input output
  | .PLY, .PCD => ply_to_pcd fs input output
  | .PCD, .PLY => pcd_to_ply fs input output
  | .XYZ, .PCD => xyz_to_pcd fs input output
  | .PCD, .XYZ => pcd_to_xyz fs input output
  | f, t => (fs, some (.ConversionFailed (fmtPC f) (fmtPC t)))

/-- `DataManager::colmap_to_nerf`: a stub — logs a warning and returns
`Ok(())` without reading or writing any file. -/
def colmap_to_nerf (fs : FS) (input output : String) : FS × Option HylaeanError :=
  (fs, none)

/-- `DataManager::nerf_to_colmap`: the same kind of stub. -/
def nerf_to_colmap (fs : FS) (input output : String) : FS × Option HylaeanError :=
  (fs, none)

/-- `DataManager::convert_camera_params`: only the two stubbed pairs,
everything else `ConversionFailed` over the kind names. -/
def convert_camera_params (fs : FS) (input output : String)
    (input_format output_format : CameraFormat) : FS × Option HylaeanError :=
  match input_format, output_format with
  | .COLMAP, .NeRF => colmap_to_nerf fs input output
  | .NeRF, .COLMAP => nerf_to_colmap fs input output
  | f, t => (fs, some (.ConversionFailed (fmtCam f) (fmtCam t)))

/-- Input-format resolution step of `convert_file`: parse the explicit
token when given, otherwise detect from the input path. -/
def resolveInputFormat (fs : FS) (input : String) (input_format : Option String) :
    Except HylaeanError DataFormat :=
  match input_format with
  | some fmt => parse_format fmt
  | none => detect_format fs input

/-- `DataManager::convert_file`, the dispatcher entry point. -/
def convert_file (fs : FS) (input output : String)
    (input_format : Option String) (output_format : String) :
    FS × Option HylaeanError :=
  match resolveInputFormat fs input input_format with
  | .error e => (fs, some e)
  | .ok input_fmt =>
    match parse_format output_format with
    | .error e => (fs, some e)
    | .ok output_fmt =>
      match input_fmt, output_fmt with
      | .PointCloud a, .PointCloud b => convert_point_cloud fs input output a b
      | .CameraParameters a, .CameraParameters b =>
        convert_camera_params fs input output a b
      | f, t => (fs, some (.ConversionFailed (fmtDF f) (fmtDF t)))

end DM

/-! ## Observation functions

Used only to state properties of produced files: extract a declared
header count, or the data section, from a list of output lines. -/

/-- The number declared on the first line starting with `field`
(second whitespace token), e.g. the `WIDTH` or `POINTS` value of a PCD
header. -/
def pcdDeclared (field : String) (ls : List String) : Option Nat :=
  (ls.find? fun l => startsWithS l field).bind fun l =>
    ((splitWs l).get? 1).bind parseNat?

/-- The rows after the `DATA ascii` marker of a PCD file. -/
def pcdDataRows (ls : List String) : List String :=
  (ls.dropWhile fun l => l ≠ "DATA ascii").drop 1

/-- The `element vertex` count declared by a PLY header (third
whitespace token of the first line starting with `element vertex`). -/
def plyDeclared (ls : List String) : Option Nat :=
  (ls.find? fun l => startsWithS l "element vertex").bind fun l =>
    ((splitWs l).get? 2).bind parseNat?

/-- The rows after the `end_header` marker of a PLY file. -/
def plyDataRows (ls : List String) : List String :=
  (ls.dropWhile fun l => l ≠ "end_header").drop 1

/-- What one `images.txt` line contributes: nothing for a comment,
blank, or short line; otherwise exactly one image with every numeric
field defaulted on parse failure. -/
def imageOfLine (pf : String → Option ℚ) (l : String) : Option ColmapImage :=
  if startsWithS l "#" || blank l then none
  else
    let parts := splitWs l
    if 10 ≤ parts.length then
      some { image_id := parseU32OrZero (parts.getD 0 "")
             qw := (pf (parts.getD 1 "")).getD 0
             qx := (pf (parts.getD 2 "")).getD 0
             qy := (pf (parts.getD 3 "")).getD 0
             qz := (pf (parts.getD 4 "")).getD 0
             tx := (pf (parts.getD 5 "")).getD 0
             ty := (pf (parts.getD 6 "")).getD 0
             tz := (pf (parts.getD 7 "")).getD 0
             camera_id := parseU32OrZero (parts.getD 8 "")
             name := parts.getD 9 "" }
    else none

/-- The point-cloud pairs `DataManager::convert_point_cloud`
implements. -/
def supportedPCPair : PointCloudFormat → PointCloudFormat → Bool
  | .PLY, .XYZ | .XYZ, .PLY | .PLY, .PCD
  | .PCD, .PLY | .XYZ, .PCD | .PCD, .XYZ => true
  | _, _ => false

/-- The camera pairs `DataManager::convert_camera_params` handles
(the two stubbed ones). -/
def supportedDMCamPair : CameraFormat → CameraFormat → Bool
  | .COLMAP, .NeRF | .NeRF, .COLMAP => true
  | _, _ => false

/-- The format pairs for which `DataManager::convert_file` reaches a
conversion routine at all. -/
def supportedDMPair : DataFormat → DataFormat → Bool
  | .PointCloud a, .PointCloud b => supportedPCPair a b
  | .CameraParameters a, .CameraParameters b => supportedDMCamPair a b
  | _, _ => false

/-- A concrete filesystem holding one valid COLMAP model under `cdir`
(one PINHOLE camera, no images), used to evaluate the dispatcher
against the camera-parameters converter. -/
def c1FS : FS :=
  [("cdir/cameras.txt",
    ["# Camera list with one line of data per camera:",
     "1 PINHOLE 640 480 500"]),
   ("cdir/images.txt", [])]

/-! ## Auxiliary lemmas: decimal rendering and whitespace splitting -/

theorem isPrefixOf_append_self (l t : List Char) : l.isPrefixOf (l ++ t) = true := by
  induction l with
  | nil => simp [List.isPrefixOf]
  | cons c cs ih => simp [List.isPrefixOf, ih]

theorem startsWith_append (p s : String) : startsWithS (p ++ s) p = true := by
  rw [startsWithS]
  exact isPrefixOf_append_self p.data s.data

theorem digitChar_digit : ∀ d < 10, isDigitChar (digitChar d) = true := by decide

theorem digitChar_val : ∀ d < 10, (digitChar d).toNat - 48 = d := by decide

theorem natToRevDigitsF_digits :
    ∀ (fuel n : Nat), ∀ c ∈ natToRevDigitsF fuel n, isDigitChar c = true := by
  intro fuel
  induction fuel with
  | zero => intro n c hc; simp [natToRevDigitsF] at hc
  | succ fuel ih =>
    intro n c hc
    match n with
    | 0 => simp [natToRevDigitsF] at hc
    | m + 1 =>
      rw [natToRevDigitsF] at hc
      rcases List.mem_cons.mp hc with h | h
      · subst h; exact digitChar_digit _ (Nat.mod_lt _ (by omega))
      · exact ih _ c h

theorem natToRevDigits_digits : ∀ n, ∀ c ∈ natToRevDigits n, isDigitChar c = true :=
  fun n => natToRevDigitsF_digits n n

theorem digitsVal_append_digit (xs : List Char) (c : Char) :
    digitsVal (xs ++ [c]) = digitsVal xs * 10 + (c.toNat - 48) := by
  simp [digitsVal, List.foldl_append]

theorem digitsVal_revF :
    ∀ (fuel n : Nat), n ≤ fuel → digitsVal (natToRevDigitsF fuel n).reverse = n := by
  intro fuel
  induction fuel with
  | zero =>
    intro n hn
    have : n = 0 := by omega
    subst this
    simp [natToRevDigitsF, digitsVal]
  | succ fuel ih =>
    intro n hn
    match n with
    | 0 => simp [natToRevDigitsF, digitsVal]
    | m + 1 =>
      rw [natToRevDigitsF, List.reverse_cons, digitsVal_append_digit,
          ih ((m + 1) / 10) (by omega),
          digitChar_val _ (Nat.mod_lt _ (by omega))]
      omega

theorem digitsVal_rev (n : Nat) : digitsVal (natToRevDigits n).reverse = n :=
  digitsVal_revF n n (Nat.le_refl n)

theorem natStr_ne_nil (n : Nat) : (natStr n).data ≠ [] := by
  by_cases h : n = 0
  · subst h; simp [natStr]
  · rw [natStr, if_neg h]
    match n, h with
    | m + 1, _ => simp [natToRevDigits, natToRevDigitsF]

theorem natStr_digits (n : Nat) : ∀ c ∈ (natStr n).data, isDigitChar c = true := by
  intro c hc
  by_cases h : n = 0
  · subst h
    rw [show natStr 0 = "0" from rfl,
        show ("0" : String).data = ['0'] from rfl] at hc
    simp at hc
    subst hc; decide
  · rw [natStr, if_neg h] at hc
    exact natToRevDigits_digits n c (List.mem_reverse.mp hc)

theorem parseNat?_natStr (n : Nat) : parseNat? (natStr n) = some n := by
  rw [parseNat?, if_pos]
  · congr 1
    by_cases h : n = 0
    · subst h; rfl
    · rw [natStr, if_neg h]
      exact digitsVal_rev n
  · have h1 : (natStr n).data.isEmpty = false := by simp [natStr_ne_nil n]
    have h2 : (natStr n).data.all isDigitChar = true :=
      List.all_eq_true.mpr fun c hc => natStr_digits n c hc
    simp [h1, h2]

theorem digit_not_ws (c : Char) (h : isDigitChar c = true) : isWsChar c = false := by
  have h1 : c ≠ ' ' := fun he => absurd h (by subst he; decide)
  have h2 : c ≠ '\t' := fun he => absurd h (by subst he; decide)
  have h3 : c ≠ '\n' := fun he => absurd h (by subst he; decide)
  have h4 : c ≠ '\r' := fun he => absurd h (by subst he; decide)
  simp [isWsChar, h1, h2, h3, h4]

theorem natStr_not_ws (n : Nat) : ∀ c ∈ (natStr n).data, isWsChar c = false :=
  fun c hc => digit_not_ws c (natStr_digits n c hc)

theorem splitWsAux_cons (c : Char) (cs acc : List Char) (h : isWsChar c = false) :
    splitWsAux (c :: cs) acc = splitWsAux cs (c :: acc) := by
  simp [splitWsAux, h]

theorem splitWsAux_cons_ws (c : Char) (cs acc : List Char) (h : isWsChar c = true) :
    splitWsAux (c :: cs) acc =
      if acc.isEmpty then splitWsAux cs [] else ⟨acc.reverse⟩ :: splitWsAux cs [] := by
  simp [splitWsAux, h]

theorem splitWsAux_nonws (ds : List Char) (hds : ∀ c ∈ ds, isWsChar c = false) :
    ∀ acc : List Char, splitWsAux ds acc =
      if (acc.reverse ++ ds).isEmpty then [] else [⟨acc.reverse ++ ds⟩] := by
  induction ds with
  | nil =>
    intro acc
    by_cases h : acc = []
    · subst h; simp [splitWsAux]
    · have h1 : acc.isEmpty = false := by simp [h]
      have h2 : acc.reverse.isEmpty = false := by simp [h]
      simp [splitWsAux, h1, h2]
  | cons c cs ih =>
    intro acc
    have hc : isWsChar c = false := hds c (by simp)
    rw [splitWsAux_cons c cs acc hc,
        ih (fun x hx => hds x (by simp [hx])) (c :: acc)]
    simp [List.reverse_cons, List.append_assoc]

theorem splitWs_single (ds : List Char) (hne : ds ≠ [])
    (hds : ∀ c ∈ ds, isWsChar c = false) :
    splitWsAux ds [] = [⟨ds⟩] := by
  rw [splitWsAux_nonws ds hds []]
  simp [hne]

theorem splitWsAux_append_ws (c : Char) (hws : isWsChar c = true) :
    ∀ xs : List Char, xs.getLast? = some c → ∀ (ys acc : List Char),
      splitWsAux (xs ++ ys) acc = splitWsAux xs acc ++ splitWsAux ys [] := by
  intro xs
  induction xs with
  | nil => intro hlast; simp at hlast
  | cons x xs' ih =>
    intro hlast ys acc
    cases xs' with
    | nil =>
      have hx : x = c := by simpa using hlast
      subst hx
      rw [List.cons_append, splitWsAux_cons_ws _ _ _ hws, splitWsAux_cons_ws _ _ _ hws]
      by_cases h : acc.isEmpty <;> simp [h, splitWsAux]
    | cons y ys' =>
      have hlast' : (y :: ys').getLast? = some c := by
        rw [← hlast, List.getLast?_cons_cons]
      rw [List.cons_append]
      cases hx : isWsChar x with
      | false =>
        rw [splitWsAux_cons _ _ _ hx, splitWsAux_cons _ _ _ hx, ih hlast' ys (x :: acc)]
      | true =>
        rw [splitWsAux_cons_ws _ _ _ hx, splitWsAux_cons_ws _ _ _ hx,
            ih hlast' ys []]
        by_cases h : acc.isEmpty <;> simp [h]

theorem splitWsAux_tokens :
    ∀ (cs acc : List Char), (∀ c ∈ acc, isWsChar c = false) →
      ∀ t ∈ splitWsAux cs acc, t.data ≠ [] ∧ ∀ c ∈ t.data, isWsChar c = false := by
  intro cs
  induction cs with
  | nil =>
    intro acc hacc t ht
    by_cases h : acc = []
    · subst h; simp [splitWsAux] at ht
    · have h1 : acc.isEmpty = false := by simp [h]
      simp only [splitWsAux, h1, Bool.false_eq_true, if_false, List.mem_singleton] at ht
      subst ht
      exact ⟨by simp [h], fun c hc => hacc c (List.mem_reverse.mp hc)⟩
  | cons c cs' ih =>
    intro acc hacc t ht
    cases hc : isWsChar c with
    | false =>
      rw [splitWsAux_cons _ _ _ hc] at ht
      refine ih (c :: acc) ?_ t ht
      intro x hx
      rcases List.mem_cons.mp hx with h | h
      · subst h; exact hc
      · exact hacc x h
    | true =>
      rw [splitWsAux_cons_ws _ _ _ hc] at ht
      by_cases h : acc = []
      · subst h; simp only [List.isEmpty_nil, if_true] at ht
        exact ih [] (by simp) t ht
      · have h1 : acc.isEmpty = false := by simp [h]
        simp only [h1, Bool.false_eq_true, if_false, List.mem_cons] at ht
        rcases ht with ht | ht
        · subst ht
          exact ⟨by simp [h], fun x hx => hacc x (List.mem_reverse.mp hx)⟩
        · exact ih [] (by simp) t ht

theorem splitWs_natStr (n : Nat) : splitWs (natStr n) = [natStr n] :=
  splitWs_single (natStr n).data (natStr_ne_nil n) (natStr_not_ws n)

theorem splitWs_append_word (lit : String) (n : Nat)
    (hlast : lit.data.getLast? = some ' ') :
    splitWs (lit ++ natStr n) = splitWs lit ++ [natStr n] := by
  show splitWsAux (lit.data ++ (natStr n).data) [] = _
  rw [splitWsAux_append_ws ' ' (by decide) lit.data hlast (natStr n).data [],
      splitWs_single _ (natStr_ne_nil n) (natStr_not_ws n)]
  rfl

theorem splitWs_elem_line (n : Nat) :
    splitWs ("element vertex " ++ natStr n) = ["element", "vertex", natStr n] := by
  rw [splitWs_append_word _ _ (by decide),
      show splitWs "element vertex " = ["element", "vertex"] from by decide]
  rfl

theorem splitWs_width_line (n : Nat) :
    splitWs ("WIDTH " ++ natStr n) = ["WIDTH", natStr n] := by
  rw [splitWs_append_word _ _ (by decide),
      show splitWs "WIDTH " = ["WIDTH"] from by decide]
  rfl

theorem splitWs_points_line (n : Nat) :
    splitWs ("POINTS " ++ natStr n) = ["POINTS", natStr n] := by
  rw [splitWs_append_word _ _ (by decide),
      show splitWs "POINTS " = ["POINTS"] from by decide]
  rfl

/-! ## Observation lemmas: headers of produced PLY and PCD files -/

theorem elem_count_parse (n : Nat) :
    (((splitWs ("element vertex " ++ natStr n)).get? 2).bind parseNat?).getD 0 = n := by
  rw [splitWs_elem_line]
  simp [parseNat?_natStr]

theorem ply_obs_declared (n : Nat) (rows : List String) :
    plyDeclared (plyHeaderLines n ++ rows) = some n := by
  rw [plyDeclared,
      show plyHeaderLines n ++ rows =
        "ply" :: "format ascii 1.0" :: ("element vertex " ++ natStr n) ::
        "property float x" :: "property float y" :: "property float z" ::
        "end_header" :: rows from rfl,
      List.find?_cons_of_neg _ (by decide), List.find?_cons_of_neg _ (by decide),
      List.find?_cons_of_pos _ rfl]
  show ((splitWs ("element vertex " ++ natStr n)).get? 2).bind parseNat? = some n
  rw [splitWs_elem_line]
  simp [parseNat?_natStr]

theorem ply_obs_rows (n : Nat) (rows : List String) :
    plyDataRows (plyHeaderLines n ++ rows) = rows := by
  have h3 : ("element vertex " ++ natStr n) ≠ "end_header" := by
    intro h
    have h' := congrArg String.data h
    simp at h'
  rw [plyDataRows,
      show plyHeaderLines n ++ rows =
        "ply" :: "format ascii 1.0" :: ("element vertex " ++ natStr n) ::
        "property float x" :: "property float y" :: "property float z" ::
        "end_header" :: rows from rfl]
  simp [List.dropWhile_cons, h3]

theorem pcd_header_expand (n : Nat) (rows : List String) :
    pcdHeaderLines n ++ rows =
      "# .PCD v0.7 - Point Cloud Data file format" :: "VERSION 0.7" ::
      "FIELDS x y z" :: "SIZE 4 4 4" :: "TYPE F F F" :: "COUNT 1 1 1" ::
      ("WIDTH " ++ natStr n) :: "HEIGHT 1" :: "VIEWPOINT 0 0 0 1 0 0 0" ::
      ("POINTS " ++ natStr n) :: "DATA ascii" :: rows := rfl

theorem pcd_obs_width (n : Nat) (rows : List String) :
    pcdDeclared "WIDTH" (pcdHeaderLines n ++ rows) = some n := by
  rw [pcdDeclared, pcd_header_expand,
      List.find?_cons_of_neg _ (by decide), List.find?_cons_of_neg _ (by decide),
      List.find?_cons_of_neg _ (by decide), List.find?_cons_of_neg _ (by decide),
      List.find?_cons_of_neg _ (by decide), List.find?_cons_of_neg _ (by decide),
      List.find?_cons_of_pos _ rfl]
  show ((splitWs ("WIDTH " ++ natStr n)).get? 1).bind parseNat? = some n
  rw [splitWs_width_line]
  simp [parseNat?_natStr]

theorem width_not_points (n : Nat) :
    startsWithS ("WIDTH " ++ natStr n) "POINTS" = false := rfl

theorem pcd_obs_points (n : Nat) (rows : List String) :
    pcdDeclared "POINTS" (pcdHeaderLines n ++ rows) = some n := by
  rw [pcdDeclared, pcd_header_expand,
      List.find?_cons_of_neg _ (by decide), List.find?_cons_of_neg _ (by decide),
      List.find?_cons_of_neg _ (by decide), List.find?_cons_of_neg _ (by decide),
      List.find?_cons_of_neg _ (by decide), List.find?_cons_of_neg _ (by decide),
      List.find?_cons_of_neg _ (by simp [width_not_points]),
      List.find?_cons_of_neg _ (by decide),
      List.find?_cons_of_neg _ (by decide), List.find?_cons_of_pos _ rfl]
  show ((splitWs ("POINTS " ++ natStr n)).get? 1).bind parseNat? = some n
  rw [splitWs_points_line]
  simp [parseNat?_natStr]

theorem pcd_obs_rows (n : Nat) (rows : List String) :
    pcdDataRows (pcdHeaderLines n ++ rows) = rows := by
  have hW : ("WIDTH " ++ natStr n) ≠ "DATA ascii" := by
    intro h
    have h' := congrArg String.data h
    simp at h'
  have hP : ("POINTS " ++ natStr n) ≠ "DATA ascii" := by
    intro h
    have h' := congrArg String.data h
    simp at h'
  rw [pcdDataRows, pcd_header_expand]
  simp [List.dropWhile_cons, hW, hP]

/-! ## Fold lemmas for the PLY reading loop -/

theorem plyScan_header (emit : String → String) (n : Nat) (rows : List String) :
    plyScan emit (plyHeaderLines n ++ rows) =
      rows.foldl (plyStep emit) ⟨true, n, 0, []⟩ := by
  rw [plyScan, List.foldl_append]
  congr 1
  have hsw : startsWithS ("element vertex " ++ natStr n) "element vertex" = true := rfl
  have e3 : plyStep emit ⟨false, 0, 0, []⟩ ("element vertex " ++ natStr n) =
      ⟨false, n, 0, []⟩ := by
    rw [plyStep]
    simp [hsw]
    rw [splitWs_elem_line]
    simp [parseNat?_natStr]
  rw [plyHeaderLines]
  simp only [List.foldl_cons, List.foldl_nil]
  rw [show plyStep emit ⟨false, 0, 0, []⟩ "ply" = ⟨false, 0, 0, []⟩ from rfl,
      show plyStep emit ⟨false, 0, 0, []⟩ "format ascii 1.0" = ⟨false, 0, 0, []⟩ from rfl,
      e3,
      show plyStep emit ⟨false, n, 0, []⟩ "property float x" = ⟨false, n, 0, []⟩ from rfl,
      show plyStep emit ⟨false, n, 0, []⟩ "property float y" = ⟨false, n, 0, []⟩ from rfl,
      show plyStep emit ⟨false, n, 0, []⟩ "property float z" = ⟨false, n, 0, []⟩ from rfl,
      show plyStep emit ⟨false, n, 0, []⟩ "end_header" = ⟨true, n, 0, []⟩ from rfl]

theorem plyScan_rows (emit : String → String) (rows : List String) :
    ∀ (p n : Nat) (out : List String),
      (∀ r ∈ rows, 3 ≤ (splitWs r).length) →
      (∀ r ∈ rows, startsWithS r "element vertex" = false) →
      p + rows.length ≤ n →
      rows.foldl (plyStep emit) ⟨true, n, p, out⟩ =
        ⟨true, n, p + rows.length, out ++ rows.map emit⟩ := by
  induction rows with
  | nil => intro p n out _ _ _; simp
  | cons r rs ih =>
    intro p n out hwf hnh hcnt
    have h1 : startsWithS r "element vertex" = false := hnh r (by simp)
    have h2 : 3 ≤ (splitWs r).length := hwf r (by simp)
    have h3 : r ≠ "end_header" := by
      intro he; subst he
      rw [show splitWs "end_header" = ["end_header"] from by decide] at h2
      simp at h2
    have h4 : p < n := by
      simp only [List.length_cons] at hcnt
      omega
    have estep : plyStep emit ⟨true, n, p, out⟩ r = ⟨true, n, p + 1, out ++ [emit r]⟩ := by
      rw [plyStep]
      simp [h1, h3, h4, h2]
    rw [List.foldl_cons, estep,
        ih (p + 1) n (out ++ [emit r]) (fun x hx => hwf x (by simp [hx]))
          (fun x hx => hnh x (by simp [hx])) (by simp only [List.length_cons] at hcnt; omega)]
    simp [List.append_assoc]
    omega

theorem xyzEmit_not_blank (r : String) (h : 3 ≤ (splitWs r).length) :
    blank (xyzEmit r) = false := by
  match hm : splitWs r with
  | [] => rw [hm] at h; simp at h
  | [t0] => rw [hm] at h; simp at h
  | [t0, t1] => rw [hm] at h; simp at h
  | t0 :: t1 :: t2 :: rest =>
    have ht0 : t0 ∈ splitWsAux r.data [] := by
      have : t0 ∈ splitWs r := by rw [hm]; simp
      exact this
    obtain ⟨hne, hnw⟩ := splitWsAux_tokens r.data [] (by simp) t0 ht0
    obtain ⟨c, cs, hc⟩ : ∃ c cs, t0.data = c :: cs := by
      match hd : t0.data, hne with
      | c :: cs, _ => exact ⟨c, cs, rfl⟩
    have hcw : isWsChar c = false := hnw c (by rw [hc]; simp)
    rw [xyzEmit, hm]
    show ((((t0.data ++ [' ']) ++ t1.data) ++ [' ']) ++ t2.data).all isWsChar = false
    rw [hc]
    simp [hcw]

/-! ## Characterizations of the sniffing scan and the COLMAP image loop -/

theorem scanCam_eq_any (ls : List String) :
    scanCam ls =
      ls.any fun l => containsSub l "# Camera list" || containsSub l "# Image list" := by
  induction ls with
  | nil => rfl
  | cons l ls ih =>
    rw [scanCam, List.any_cons, ← ih]
    cases h : (containsSub l "# Camera list" || containsSub l "# Image list") <;> simp [h]

theorem readColmapImagesLoop_eq (pf : String → Option ℚ) :
    ∀ (lines : List String) (acc : List ColmapImage),
      readColmapImagesLoop pf lines acc = acc ++ lines.filterMap (imageOfLine pf) := by
  intro lines
  induction lines with
  | nil => intro acc; simp [readColmapImagesLoop]
  | cons l ls ih =>
    intro acc
    rw [readColmapImagesLoop]
    by_cases h1 : (startsWithS l "#" || blank l) = true
    · rw [if_pos h1, ih]
      have : imageOfLine pf l = none := by rw [imageOfLine, if_pos h1]
      simp [List.filterMap_cons, this]
    · rw [if_neg h1]
      by_cases h2 : 10 ≤ (splitWs l).length
      · rw [if_pos h2, ih]
        have : imageOfLine pf l = some
            { image_id := parseU32OrZero ((splitWs l).getD 0 "")
              qw := (pf ((splitWs l).getD 1 "")).getD 0
              qx := (pf ((splitWs l).getD 2 "")).getD 0
              qy := (pf ((splitWs l).getD 3 "")).getD 0
              qz := (pf ((splitWs l).getD 4 "")).getD 0
              tx := (pf ((splitWs l).getD 5 "")).getD 0
              ty := (pf ((splitWs l).getD 6 "")).getD 0
              tz := (pf ((splitWs l).getD 7 "")).getD 0
              camera_id := parseU32OrZero ((splitWs l).getD 8 "")
              name := (splitWs l).getD 9 "" } := by
          rw [imageOfLine, if_neg h1]
          simp only [if_pos h2]
        simp [List.filterMap_cons, this]
      · rw [if_neg h2, ih]
        have : imageOfLine pf l = none := by
          rw [imageOfLine, if_neg h1]
          simp only [if_neg h2]
        simp [List.filterMap_cons, this]

/-! ## Claim theorems -/

/-- Claim C3, amended: for every input, XYZ→PLY declares `element
vertex N` where `N` is the TOTAL number of input lines (pass 1 counts
every line, whitespace-only ones included), while the data section is
the non-blank lines copied verbatim; hence the declared count equals
the number of data rows exactly when no input line is whitespace-only. -/
theorem xyz_to_ply_counts (ls : List String) :
    plyDeclared (xyzToPlyLines ls) = some ls.length ∧
    plyDataRows (xyzToPlyLines ls) = ls.filter (fun l => !(blank l)) ∧
    ((∀ l ∈ ls, blank l = false) →
      (plyDataRows (xyzToPlyLines ls)).length = ls.length) := by
  refine ⟨?_, ?_, ?_⟩
  · rw [xyzToPlyLines]; exact ply_obs_declared ls.length _
  · rw [xyzToPlyLines]; exact ply_obs_rows ls.length _
  · intro h
    rw [xyzToPlyLines, ply_obs_rows,
        List.filter_eq_self.mpr (fun a ha => by simp [h a ha])]

/-- Claim C3, counterexample: on the two-line input `["1 2 3", " "]`
(one data row, one whitespace-only row) the written header declares
`element vertex 2`, although only 1 input line is non-whitespace-only
and only 1 data row is written. -/
theorem xyz_to_ply_counts_cex :
    plyDeclared (xyzToPlyLines ["1 2 3", " "]) = some 2 ∧
    (["1 2 3", " "].filter (fun l => !(blank l))).length = 1 ∧
    (plyDataRows (xyzToPlyLines ["1 2 3", " "])).length = 1 := by decide

/-- Witness for `xyz_to_ply_counts` at the blank-free input
`["1 2 3"]`. -/
theorem xyz_to_ply_counts_witness :
    plyDeclared (xyzToPlyLines ["1 2 3"]) = some 1 ∧
    (plyDataRows (xyzToPlyLines ["1 2 3"])).length = 1 := by
  have h := xyz_to_ply_counts ["1 2 3"]
  exact ⟨h.1, h.2.2 (by decide)⟩

/-- Claim C2, amended: a PCD file written by PLY→PCD always has
`WIDTH`, `POINTS` and the emitted row count all equal; a PCD file
written by XYZ→PCD has `WIDTH = POINTS =` the TOTAL number of input
lines while the data section keeps only the non-blank lines, so the
three agree exactly when no input line is whitespace-only. -/
theorem pcd_output_counts (ply xyz : List String) :
    (pcdDeclared "WIDTH" (plyToPcdLines ply) =
        some (pcdDataRows (plyToPcdLines ply)).length ∧
      pcdDeclared "POINTS" (plyToPcdLines ply) =
        some (pcdDataRows (plyToPcdLines ply)).length) ∧
    pcdDeclared "WIDTH" (xyzToPcdLines xyz) = some xyz.length ∧
    pcdDeclared "POINTS" (xyzToPcdLines xyz) = some xyz.length ∧
    pcdDataRows (xyzToPcdLines xyz) = xyz.filter (fun l => !(blank l)) ∧
    ((∀ l ∈ xyz, blank l = false) →
      (pcdDataRows (xyzToPcdLines xyz)).length = xyz.length) := by
  refine ⟨⟨?_, ?_⟩, ?_, ?_, ?_, ?_⟩
  · rw [plyToPcdLines, pcd_obs_rows]; exact pcd_obs_width _ _
  · rw [plyToPcdLines, pcd_obs_rows]; exact pcd_obs_points _ _
  · rw [xyzToPcdLines]; exact pcd_obs_width _ _
  · rw [xyzToPcdLines]; exact pcd_obs_points _ _
  · rw [xyzToPcdLines]; exact pcd_obs_rows _ _
  · intro h
    rw [xyzToPcdLines, pcd_obs_rows,
        List.filter_eq_self.mpr (fun a ha => by simp [h a ha])]

/-- Claim C2, counterexample: XYZ→PCD on `["1 2 3", " "]` writes
`WIDTH 2` and `POINTS 2` but only 1 data row, so the three counts are
not all equal for every input. -/
theorem pcd_output_counts_cex :
    pcdDeclared "WIDTH" (xyzToPcdLines ["1 2 3", " "]) = some 2 ∧
    pcdDeclared "POINTS" (xyzToPcdLines ["1 2 3", " "]) = some 2 ∧
    (pcdDataRows (xyzToPcdLines ["1 2 3", " "])).length = 1 := by decide

/-- Witness for `pcd_output_counts` at a concrete PLY input and a
blank-free XYZ input. -/
theorem pcd_output_counts_witness :
    (pcdDataRows (xyzToPcdLines ["1 2 3"])).length = 1 ∧
    pcdDeclared "WIDTH"
        (plyToPcdLines ["ply", "element vertex 1", "end_header", "4 5 6"]) =
      some (pcdDataRows
        (plyToPcdLines ["ply", "element vertex 1", "end_header", "4 5 6"])).length := by
  have h := pcd_output_counts ["ply", "element vertex 1", "end_header", "4 5 6"] ["1 2 3"]
  exact ⟨h.2.2.2.2 (by decide), h.1.1⟩

/-- Claim C8, amended: for a PLY input whose header declares any count
`n` and whose `N ≤ n` data rows each have at least three whitespace
tokens AND do not begin with the `element vertex` header directive,
PLY→XYZ→PLY declares a final `element vertex` count equal to the
number of non-blank rows of the intermediate XYZ file; the
intermediate never contains a blank row and has exactly `N` rows, so
the final declared count equals `N`.  A data row that begins with
`element vertex` is re-interpreted as a header directive and breaks
the equality (see the counterexample). -/
theorem ply_roundtrip_count (rows : List String) (n : Nat)
    (hn : rows.length ≤ n)
    (hwf : ∀ r ∈ rows, 3 ≤ (splitWs r).length)
    (hnh : ∀ r ∈ rows, startsWithS r "element vertex" = false) :
    plyDeclared (xyzToPlyLines (plyToXyzLines (plyHeaderLines n ++ rows))) =
      some ((plyToXyzLines (plyHeaderLines n ++ rows)).filter
        (fun l => !(blank l))).length ∧
    (plyToXyzLines (plyHeaderLines n ++ rows)).filter (fun l => !(blank l)) =
      plyToXyzLines (plyHeaderLines n ++ rows) ∧
    (plyToXyzLines (plyHeaderLines n ++ rows)).length = rows.length := by
  have hmid : plyToXyzLines (plyHeaderLines n ++ rows) = rows.map xyzEmit := by
    rw [plyToXyzLines, plyScan_header,
        plyScan_rows xyzEmit rows 0 n [] hwf hnh (by omega)]
    simp
  have hfil : (rows.map xyzEmit).filter (fun l => !(blank l)) = rows.map xyzEmit := by
    refine List.filter_eq_self.mpr fun a ha => ?_
    obtain ⟨r, hr, rfl⟩ := List.mem_map.mp ha
    simp [xyzEmit_not_blank r (hwf r hr)]
  refine ⟨?_, ?_, ?_⟩
  · rw [hmid, hfil, xyzToPlyLines, ply_obs_declared]
  · rw [hmid]; exact hfil
  · rw [hmid]; simp

/-- Claim C8, counterexample: the single data row `"element vertex 0"`
has three whitespace tokens (well-formed in the claim's sense) and is
not blank, yet the round-trip of the 1-row PLY containing it declares
a final count of 0, not 1: the row is consumed as a header directive. -/
theorem ply_roundtrip_count_cex :
    3 ≤ (splitWs "element vertex 0").length ∧
    blank "element vertex 0" = false ∧
    plyDeclared (xyzToPlyLines (plyToXyzLines
      (plyHeaderLines 1 ++ ["element vertex 0"]))) = some 0 := by decide

/-- Witness for `ply_roundtrip_count` at the spec's own two-row
example. -/
theorem ply_roundtrip_count_witness :
    plyDeclared (xyzToPlyLines (plyToXyzLines
      (plyHeaderLines 2 ++ ["1.0 2.0 3.0", "4.0 5.0 6.0"]))) = some 2 := by
  have h := ply_roundtrip_count ["1.0 2.0 3.0", "4.0 5.0 6.0"] 2
    (by decide) (by decide) (by decide)
  refine h.1.trans ?_
  rw [h.2.1, h.2.2]
  rfl

/-- Claim C6: `quaternion_to_matrix` produces exactly the rotation
entries of the specification, the translation column `(tx, ty, tz, 1)`,
and zeros everywhere else, so the bottom row is always `[0, 0, 0, 1]`. -/
theorem quaternion_to_matrix_spec (qw qx qy qz tx ty tz : ℚ) :
    quaternion_to_matrix qw qx qy qz tx ty tz =
      { m00 := 1 - 2 * (qy ^ 2 + qz ^ 2), m01 := 2 * (qx * qy - qz * qw),
        m02 := 2 * (qx * qz + qy * qw), m03 := tx,
        m10 := 2 * (qx * qy + qz * qw), m11 := 1 - 2 * (qx ^ 2 + qz ^ 2),
        m12 := 2 * (qy * qz - qx * qw), m13 := ty,
        m20 := 2 * (qx * qz - qy * qw), m21 := 2 * (qy * qz + qx * qw),
        m22 := 1 - 2 * (qx ^ 2 + qy ^ 2), m23 := tz,
        m30 := 0, m31 := 0, m32 := 0, m33 := 1 } := by
  rw [show quaternion_to_matrix qw qx qy qz tx ty tz =
    Mat4.mk (1 - 2 * (qy * qy + qz * qz)) (2 * (qx * qy - qz * qw))
      (2 * (qx * qz + qy * qw)) tx
      (2 * (qx * qy + qz * qw)) (1 - 2 * (qx * qx + qz * qz))
      (2 * (qy * qz - qx * qw)) ty
      (2 * (qx * qz - qy * qw)) (2 * (qy * qz + qx * qw))
      (1 - 2 * (qx * qx + qy * qy)) tz
      0 0 0 1 from rfl]
  simp only [Mat4.mk.injEq]
  refine ⟨?_, ?_, ?_, ?_, ?_, ?_, ?_, ?_, ?_, ?_, ?_, ?_, ?_, ?_, ?_, ?_⟩ <;> ring

/-- Claim C5: `matrix_to_quaternion` reads the translation off the
fourth column and, when the trace is positive, computes the quaternion
with `s = 2·sqrt(trace + 1)`; for any trace `≤ 0` it falls back to the
identity quaternion `(1, 0, 0, 0)` — in particular the 180° rotation
about the x-axis (the matrix of quaternion `(0, 1, 0, 0)`) extracts to
the identity quaternion, not the true rotation. -/
theorem matrix_to_quaternion_spec (sq : ℚ → ℚ) :
    (∀ m : Mat4,
      matrix_to_quaternion sq m =
        if m.m00 + m.m11 + m.m22 > 0 then
          (0.25 * (2 * sq (m.m00 + m.m11 + m.m22 + 1)),
           (m.m21 - m.m12) / (2 * sq (m.m00 + m.m11 + m.m22 + 1)),
           (m.m02 - m.m20) / (2 * sq (m.m00 + m.m11 + m.m22 + 1)),
           (m.m10 - m.m01) / (2 * sq (m.m00 + m.m11 + m.m22 + 1)),
           m.m03, m.m13, m.m23)
        else (1, 0, 0, 0, m.m03, m.m13, m.m23)) ∧
    matrix_to_quaternion sq (quaternion_to_matrix 0 1 0 0 0 0 0) =
      (1, 0, 0, 0, 0, 0, 0) := by
  constructor
  · intro m
    simp only [matrix_to_quaternion]
    split
    · rw [show sq (m.m00 + m.m11 + m.m22 + 1) * 2 =
        2 * sq (m.m00 + m.m11 + m.m22 + 1) from by ring]
    · rfl
  · rw [matrix_to_quaternion]
    norm_num [quaternion_to_matrix, zeroMat4]

/-- Claim C7: `detect_format` maps the (lower-cased) extension through
the fixed table `ply/pcd/xyz/laz/json`; for `txt` it answers
`CameraParameters COLMAP` exactly when one of the first 5 lines of the
file contains `"# Camera list"` or `"# Image list"` and
`PointCloud XYZ` otherwise (propagating the I/O error when the file
does not exist); every other extension fails with
`UnsupportedFormat` carrying the original extension. -/
theorem detect_format_spec (fs : FS) (path : String) :
    detect_format fs path =
      match toLowerS (extension path) with
      | "ply" => .ok (.PointCloud .PLY)
      | "pcd" => .ok (.PointCloud .PCD)
      | "xyz" => .ok (.PointCloud .XYZ)
      | "laz" => .ok (.PointCloud .LAZ)
      | "txt" =>
        match FS.read fs path with
        | none => .error (.IoError path)
        | some lines =>
          if (lines.take 5).any
              (fun l => containsSub l "# Camera list" || containsSub l "# Image list")
          then .ok (.CameraParameters .COLMAP)
          else .ok (.PointCloud .XYZ)
      | "json" => .ok (.CameraParameters .NeRF)
      | _ => .error (.UnsupportedFormat (extension path)) := by
  rw [detect_format, looks_like_camera_params]
  cases h : FS.read fs path with
  | none => rfl
  | some lines => simp only [scanCam_eq_any]

/-- Claim C9: whenever `images.txt` exists, reading it always succeeds
(`Except.ok`, never an error from malformed numeric content), and each
line contributes exactly what `imageOfLine` says: comments, blanks and
lines with fewer than 10 tokens are skipped, every other line yields
exactly one `ColmapImage` whose numeric fields default to `0`/`0.0`
when their token fails to parse.  `pf` ranges over every possible
model of `parse::<f64>`. -/
theorem read_colmap_images_spec (pf : String → Option ℚ) (fs : FS)
    (dir : String) (lines : List String)
    (h : FS.read fs (joinPath dir "images.txt") = some lines) :
    readColmapImages pf fs dir = .ok (lines.filterMap (imageOfLine pf)) := by
  rw [readColmapImages]
  simp only [h]
  rw [readColmapImagesLoop_eq]
  simp

/-- Witness for `read_colmap_images_spec`: a file with a comment, a
blank line, one full row whose numeric tokens all fail to parse (the
oracle is `fun _ => none`), and one short row; only the full row
survives, with every numeric field defaulted. -/
theorem read_colmap_images_spec_witness :
    readColmapImages (fun _ => none)
        [("d/images.txt",
          ["# Image list with two lines of data per image:", "  ",
           "1 a b c d e f g 2 img.png", "7 0"])] "d" =
      .ok [{ image_id := 1, qw := 0, qx := 0, qy := 0, qz := 0,
             tx := 0, ty := 0, tz := 0, camera_id := 2, name := "img.png" }] := by
  rw [read_colmap_images_spec (fun _ => none)
    [("d/images.txt",
      ["# Image list with two lines of data per image:", "  ",
       "1 a b c d e f g 2 img.png", "7 0"])] "d"
    ["# Image list with two lines of data per image:", "  ",
     "1 a b c d e f g 2 img.png", "7 0"] rfl]
  rfl

/-- Claim C10: both COLMAP-reading conversions of the
`CameraParamsConverter` treat the input path as a directory holding
`cameras.txt` and `images.txt`; when either file is missing they fail
with `InvalidPath` naming the missing file, and the filesystem is
returned unchanged — no output file is created. -/
theorem colmap_input_missing (pf : String → Option ℚ) (at0 : ℚ → ℚ)
    (toJson : NeRFCamera → List String) (ff : ℚ → String) (fs : FS) (dir out : String)
    (h : FS.read fs (joinPath dir "cameras.txt") = none ∨
         FS.read fs (joinPath dir "images.txt") = none) :
    ∃ p, (p = joinPath dir "cameras.txt" ∨ p = joinPath dir "images.txt") ∧
      CPC.colmap_to_nerf pf at0 toJson fs dir out = (fs, some (.InvalidPath p)) ∧
      CPC.colmap_to_opencv pf ff fs dir out = (fs, some (.InvalidPath p)) := by
  cases hc : FS.read fs (joinPath dir "cameras.txt") with
  | none =>
    refine ⟨joinPath dir "cameras.txt", Or.inl rfl, ?_, ?_⟩
    · rw [CPC.colmap_to_nerf, readColmapCameras]
      simp only [hc]
    · rw [CPC.colmap_to_opencv, readColmapCameras]
      simp only [hc]
  | some camlines =>
    have hi : FS.read fs (joinPath dir "images.txt") = none := by
      rcases h with h | h
      · rw [hc] at h; exact absurd h (by simp)
      · exact h
    refine ⟨joinPath dir "images.txt", Or.inr rfl, ?_, ?_⟩
    · rw [CPC.colmap_to_nerf, readColmapCameras, readColmapImages]
      simp only [hc, hi]
    · rw [CPC.colmap_to_opencv, readColmapCameras, readColmapImages]
      simp only [hc, hi]

/-- Witness for `colmap_input_missing` on the empty filesystem. -/
theorem colmap_input_missing_witness :
    ∃ p, (p = joinPath "d" "cameras.txt" ∨ p = joinPath "d" "images.txt") ∧
      CPC.colmap_to_nerf (fun _ => none) id (fun _ => []) [] "d" "o" =
        ([], some (.InvalidPath p)) ∧
      CPC.colmap_to_opencv (fun _ => none) (fun _ => "") [] "d" "o" =
        ([], some (.InvalidPath p)) :=
  colmap_input_missing (fun _ => none) id (fun _ => []) (fun _ => "") [] "d" "o"
    (Or.inl rfl)

/-- Claim C4: whenever `convert_file` resolves its two formats to a
pair with no implemented conversion (any pair involving `LAZ` or
`Custom`, `COLMAP`↔`Blender`, identity pairs such as `PLY`↔`PLY` or
`PCD`↔`PCD`, and every `PointCloud`/`CameraParameters` category
mismatch — all of which satisfy `supportedDMPair f g = false`), the
call returns `ConversionFailed` and the filesystem is unchanged: the
output path is never created. -/
theorem convert_file_unsupported (fs : FS) (input output : String)
    (ifmt : Option String) (ofmt : String) (f g : DataFormat)
    (hf : DM.resolveInputFormat fs input ifmt = .ok f)
    (hg : parse_format ofmt = .ok g)
    (hu : supportedDMPair f g = false) :
    ∃ s t, DM.convert_file fs input output ifmt ofmt =
      (fs, some (.ConversionFailed s t)) := by
  rw [DM.convert_file, hf, hg]
  rcases f with a | a | a <;> rcases g with b | b | b <;>
    try exact ⟨_, _, rfl⟩
  · cases a <;> cases b <;>
      first
        | exact absurd hu (by decide)
        | exact ⟨_, _, rfl⟩
  · cases a <;> cases b <;>
      first
        | exact absurd hu (by decide)
        | exact ⟨_, _, rfl⟩

/-- Witness for `convert_file_unsupported`: an explicit PLY→LAZ
request on the empty filesystem. -/
theorem convert_file_unsupported_witness :
    ∃ s t, DM.convert_file [] "in.ply" "out.laz" (some "ply") "laz" =
      ([], some (.ConversionFailed s t)) :=
  convert_file_unsupported [] "in.ply" "out.laz" (some "ply") "laz"
    (.PointCloud .PLY) (.PointCloud .LAZ) rfl rfl rfl

/-- Claim C1 (divergence at the failing input): on a valid
COLMAP→NeRF request the dispatcher `DataManager::convert_file` runs
its `colmap_to_nerf` stub — it returns success yet writes no output
file — while `CameraParamsConverter::colmap_to_nerf` (section 4.3)
succeeds and creates the output file; and on an OpenCV→COLMAP request
the dispatcher fails with `ConversionFailed` while the converter
writes its placeholder file.  So `convert_file` does not delegate
camera conversions to the Camera Parameters Converter. -/
theorem convert_file_camera_stub_diverges (pf : String → Option ℚ)
    (at0 : ℚ → ℚ) (toJson : NeRFCamera → List String) :
    DM.convert_file c1FS "cdir" "out.json" (some "colmap") "nerf" = (c1FS, none) ∧
    FS.read c1FS "out.json" = none ∧
    (CPC.colmap_to_nerf pf at0 toJson c1FS "cdir" "out.json").2 = none ∧
    (∃ c, FS.read (CPC.colmap_to_nerf pf at0 toJson c1FS "cdir" "out.json").1
      "out.json" = some c) ∧
    DM.convert_file c1FS "cdir" "outdir" (some "opencv") "colmap" =
      (c1FS, some (.ConversionFailed "OpenCV" "COLMAP")) ∧
    CPC.opencv_to_colmap c1FS "cdir" "outdir" =
      (FS.write c1FS "outdir"
        ["# Camera list with one line of data per camera:",
         "# CAMERA_ID, MODEL, WIDTH, HEIGHT, PARAMS[]"], none) := by
  refine ⟨rfl, rfl, rfl, ⟨_, rfl⟩, rfl, rfl⟩

end HylaeanSplat
